import Mathlib

/-!
Shallow embedding of the vending-machine simulation core
(src/vending/simulation.py and the day loop of src/vending/server.py).

Python floats are modelled as exact rationals, Python ints as Lean
integers.  The global random source is made explicit: the per-product
uniform draw of the demand simulator and the 0/1 extra-delay draw for
unreliable suppliers are parameters of the corresponding functions.
-/

set_option maxRecDepth 40000

attribute [local semireducible] Rat.mul Rat.inv Rat.add Rat.sub Rat.ofScientific

/-- Truncation toward zero, the behaviour of Python int() on a number. -/
def trunc (q : ℚ) : ℤ := if 0 ≤ q then ⌊q⌋ else -⌊-q⌋

/-- Round to nearest integer, ties to even (Python round / float formatting). -/
def rhe (q : ℚ) : ℤ :=
  let f := ⌊q⌋
  let r := q - (f : ℚ)
  if (1 : ℚ)/2 < r then f + 1
  else if r < (1 : ℚ)/2 then f
  else if f % 2 = 0 then f else f + 1

/-- Python round(x, 2). -/
def round2 (q : ℚ) : ℚ := (rhe (q * 100) : ℚ) / 100

/-- Render a natural number, padding to two digits (cents). -/
def pad2 (n : ℕ) : String := if n < 10 then "0" ++ toString n else toString n

/-- Python f-string "%.2f" formatting of a number. -/
def fmt2 (q : ℚ) : String :=
  if q < 0 then
    let m := (rhe (-q * 100)).toNat
    "-" ++ toString (m / 100) ++ "." ++ pad2 (m % 100)
  else
    let m := (rhe (q * 100)).toNat
    toString (m / 100) ++ "." ++ pad2 (m % 100)

/-- The fixed product key set of the simulation. -/
inductive PName where
  | Soda
  | Chips
  | Candy
deriving DecidableEq, Repr, Fintype

/-- The products in Python dict insertion order. -/
def pnames : List PName := [PName.Soda, PName.Chips, PName.Candy]

/-- Display name of a product ("Soda", "Chips", "Candy"). -/
def PName.str : PName → String
  | .Soda => "Soda"
  | .Chips => "Chips"
  | .Candy => "Candy"

/-- Lower-case name used by the quantity parser. -/
def PName.lowerStr : PName → String
  | .Soda => "soda"
  | .Chips => "chips"
  | .Candy => "candy"

/-- dataclass Product of simulation.py. -/
structure Product where
  name : String
  stock : ℤ
  price : ℚ
  wholesale_cost : ℚ
deriving DecidableEq, Repr

/-- A pending supplier order (the dicts appended to state.pending_orders). -/
structure Order where
  product : PName
  quantity : ℕ
  cost : ℚ
  days_remaining : ℤ
deriving DecidableEq, Repr

/-- An entry of the append-only email log.  dirOut is true for outgoing mail. -/
structure EmailRec where
  dirOut : Bool
  counterpart : String
  subject : String
  body : String
deriving DecidableEq, Repr

/-- The per-product sales dict written once per day by the demand simulator. -/
structure Sales where
  soda : ℤ
  chips : ℤ
  candy : ℤ
deriving DecidableEq, Repr

def Sales.get (s : Sales) : PName → ℤ
  | .Soda => s.soda
  | .Chips => s.chips
  | .Candy => s.candy

/-- The fixed-key products mapping of GameState. -/
structure Inventory where
  soda : Product
  chips : Product
  candy : Product
deriving DecidableEq, Repr

def Inventory.get (inv : Inventory) : PName → Product
  | .Soda => inv.soda
  | .Chips => inv.chips
  | .Candy => inv.candy

def Inventory.set (inv : Inventory) : PName → Product → Inventory
  | .Soda, p => { inv with soda := p }
  | .Chips, p => { inv with chips := p }
  | .Candy, p => { inv with candy := p }

/-- dataclass GameState of simulation.py. -/
structure GameState where
  day : ℤ
  balance : ℚ
  products : Inventory
  pending_orders : List Order
  sales_today : Sales
  emails : List EmailRec
  agent_notes : String
  max_days : ℤ
deriving DecidableEq, Repr

/-- The default GameState (field defaults of the dataclass). -/
def initState : GameState where
  day := 1
  balance := 500
  products :=
    { soda := { name := "Soda", stock := 10, price := 1.75, wholesale_cost := 0.70 }
      chips := { name := "Chips", stock := 10, price := 1.25, wholesale_cost := 0.45 }
      candy := { name := "Candy", stock := 10, price := 0.99, wholesale_cost := 0.30 } }
  pending_orders := []
  sales_today := { soda := 0, chips := 0, candy := 0 }
  emails := []
  agent_notes := ""
  max_days := 30

inductive Personality where
  | professional
  | pushy
  | friendly
deriving DecidableEq, Repr

/-- One entry of the SUPPLIERS dict. -/
structure SupplierInfo where
  name : String
  sodaCost : ℚ
  chipsCost : ℚ
  candyCost : ℚ
  reliable : Bool
  delivery_days : ℤ
  personality : Personality
deriving DecidableEq, Repr

def SupplierInfo.unitCost (s : SupplierInfo) : PName → ℚ
  | .Soda => s.sodaCost
  | .Chips => s.chipsCost
  | .Candy => s.candyCost

def quickStock : SupplierInfo where
  name := "QuickStock"
  sodaCost := 0.70
  chipsCost := 0.45
  candyCost := 0.30
  reliable := true
  delivery_days := 1
  personality := .professional

def vendMart : SupplierInfo where
  name := "VendMart"
  sodaCost := 0.60
  chipsCost := 0.40
  candyCost := 0.25
  reliable := false
  delivery_days := 1
  personality := .pushy

def bulkBarn : SupplierInfo where
  name := "BulkBarn"
  sodaCost := 0.50
  chipsCost := 0.35
  candyCost := 0.20
  reliable := true
  delivery_days := 3
  personality := .friendly

/-- The SUPPLIERS catalog in dict insertion order. -/
def SUPPLIERS : List SupplierInfo := [quickStock, vendMart, bulkBarn]

/-! ### The free-text order parser of generate_supplier_response -/

/-- ASCII lower-casing of one character (Python str.lower on the
ASCII range relevant here). -/
def lowerChar (c : Char) : Char :=
  if 65 ≤ c.toNat ∧ c.toNat ≤ 90 then Char.ofNat (c.toNat + 32) else c

/-- The lower-cased character sequence of a string (body.lower()). -/
def lowerL (s : String) : List Char := s.toList.map lowerChar

/-- Whether the first list is an initial segment of the second. -/
def begMatch : List Char → List Char → Bool
  | [], _ => true
  | _ :: _, [] => false
  | a :: as, b :: bs => a == b && begMatch as bs

/-- Whether the first list occurs contiguously inside the second
(Python substring containment, used for keyword and supplier matching). -/
def hasSub (needle : List Char) : List Char → Bool
  | [] => needle.isEmpty
  | c :: rest => begMatch needle (c :: rest) || hasSub needle rest

/-- Numeric value of a digit run (int(match.group(1))). -/
def digitsToNat (ds : List Char) : ℕ :=
  ds.foldl (fun n c => n * 10 + (c.toNat - 48)) 0

/-- Match of the regex (\d+)\s*PRODUCT anchored at the head of cs.
The three character classes involved are pairwise disjoint, so greedy
maximal munch agrees with the backtracking regex engine. -/
def matchA (prod cs : List Char) : Option ℕ :=
  let ds := cs.takeWhile Char.isDigit
  match ds with
  | [] => none
  | _ :: _ =>
    let rest := (cs.dropWhile Char.isDigit).dropWhile Char.isWhitespace
    if begMatch prod rest then some (digitsToNat ds) else none

/-- re.search of (\d+)\s*PRODUCT: leftmost match wins. -/
def searchA (prod : List Char) : List Char → Option ℕ
  | [] => none
  | c :: rest =>
    match matchA prod (c :: rest) with
    | some n => some n
    | none => searchA prod rest

/-- A character of the class [:\s]. -/
def isSep (c : Char) : Bool := c == ':' || c.isWhitespace

/-- Match of the regex PRODUCT[:\s]+(\d+) anchored at the head of cs. -/
def matchB (prod cs : List Char) : Option ℕ :=
  if begMatch prod cs then
    let rest := cs.drop prod.length
    let seps := rest.takeWhile isSep
    match seps with
    | [] => none
    | _ :: _ =>
      let ds := (rest.dropWhile isSep).takeWhile Char.isDigit
      match ds with
      | [] => none
      | _ :: _ => some (digitsToNat ds)
  else none

/-- re.search of PRODUCT[:\s]+(\d+): leftmost match wins. -/
def searchB (prod : List Char) : List Char → Option ℕ
  | [] => none
  | c :: rest =>
    match matchB prod (c :: rest) with
    | some n => some n
    | none => searchB prod rest

/-- Quantity extracted for one product: the patterns are tried in
order, the first that matches anywhere wins. -/
def parseOne (prod cs : List Char) : Option ℕ :=
  match searchA prod cs with
  | some n => some n
  | none => searchB prod cs

/-- The quantities dict, keyed in the loop order soda, chips, candy. -/
def parseQuantities (body : String) : List (PName × ℕ) :=
  pnames.filterMap fun p =>
    (parseOne p.lowerStr.toList (lowerL body)).map fun n => (p, n)

/-- The fixed order-intent keyword set. -/
def orderWords : List String := ["order", "buy", "purchase", "want", "need", "send"]

/-- is_order: some keyword occurs in the lower-cased body. -/
def isOrderB (body : String) : Bool :=
  orderWords.any fun w => hasSub w.toList (lowerL body)

/-! ### The negotiation / order interpreter -/

/-- Cost of one line of the order. -/
def lineCost (sup : SupplierInfo) (pq : PName × ℕ) : ℚ :=
  (pq.2 : ℚ) * sup.unitCost pq.1

/-- total = sum(quantities[p] * supplier_info[p] for p in quantities). -/
def orderTotal (sup : SupplierInfo) (qs : List (PName × ℕ)) : ℚ :=
  (qs.map (lineCost sup)).sum

/-- The order dict appended to pending_orders for one line. -/
def mkOrder (sup : SupplierInfo) (dd : ℤ) (pq : PName × ℕ) : Order where
  product := pq.1
  quantity := pq.2
  cost := lineCost sup pq
  days_remaining := dd

/-- The per-product loop of the confirmed-order path: deduct each line
cost from balance and append the order. -/
def placeOrders (sup : SupplierInfo) (dd : ℤ) (qs : List (PName × ℕ))
    (s : GameState) : GameState :=
  qs.foldl
    (fun st pq =>
      { st with
        balance := st.balance - lineCost sup pq
        pending_orders := st.pending_orders ++ [mkOrder sup dd pq] })
    s

/-- Order summary string ", ".join(f"(q) (p)"). -/
def orderSummary (qs : List (PName × ℕ)) : String :=
  String.intercalate ", " (qs.map fun pq => toString pq.2 ++ " " ++ pq.1.str)

/-- "tomorrow" for 1-day delivery, else "in N days". -/
def deliveryMsg (dd : ℤ) : String :=
  if dd = 1 then "tomorrow" else "in " ++ toString dd ++ " days"

/-- The canned (non-order) reply, chosen by supplier personality. -/
def cannedReply (sup : SupplierInfo) : String :=
  match sup.personality with
  | .pushy =>
    "Thanks for reaching out! We have the BEST prices in town. What can I get you? We\x27re running a special today - order now!"
  | .friendly =>
    "Hey there! Great to hear from you. We\x27ve got wholesale prices: Soda $" ++
      fmt2 sup.sodaCost ++ ", Chips $" ++ fmt2 sup.chipsCost ++ ", Candy $" ++
      fmt2 sup.candyCost ++ ". Delivery takes 3 days but you\x27ll save big!"
  | .professional =>
    "Hello! Happy to help. Our current prices: Soda $" ++ fmt2 sup.sodaCost ++
      ", Chips $" ++ fmt2 sup.chipsCost ++ ", Candy $" ++ fmt2 sup.candyCost ++
      ". Let me know what you need."

/-- The rejection reply when the order total exceeds the balance. -/
def rejectionMsg (total balance : ℚ) : String :=
  "Your order totals $" ++ fmt2 total ++ " but your balance is only $" ++
    fmt2 balance ++ ". Please adjust your order."

/-- generate_supplier_response of simulation.py.  extra is the
random.choice([0, 1]) draw used for unreliable suppliers. -/
def generate_supplier_response (s : GameState) (sup : SupplierInfo)
    (body : String) (extra : ℕ) : String × GameState :=
  let qs := parseQuantities body
  if isOrderB body && !qs.isEmpty then
    let total := orderTotal sup qs
    if total > s.balance then
      (rejectionMsg total s.balance, s)
    else
      let dd := if sup.reliable then sup.delivery_days else sup.delivery_days + extra
      ("Order confirmed: " ++ orderSummary qs ++ ". Total: $" ++ fmt2 total ++
        ". Delivery " ++ deliveryMsg dd ++ ".",
       placeOrders sup dd qs s)
  else
    (cannedReply sup, s)

/-- Supplier resolution: the first catalog name that occurs
case-insensitively in the recipient string. -/
def findSupplier (toAddr : String) : Option SupplierInfo :=
  SUPPLIERS.find? fun sup => hasSub (lowerL sup.name) (lowerL toAddr)

/-- handle_email of simulation.py.  Logs the outgoing mail, resolves the
supplier, generates the reply and logs it. -/
def handle_email (s : GameState) (toAddr subject body : String) (extra : ℕ) :
    String × GameState :=
  let s1 := { s with
    emails := s.emails ++ [{ dirOut := true, counterpart := toAddr,
                             subject := subject, body := body.take 200 }] }
  match findSupplier toAddr with
  | none => ("Unknown recipient: " ++ toAddr, s1)
  | some sup =>
    let rs := generate_supplier_response s1 sup body extra
    ("Email sent to " ++ sup.name ++ ". They replied: " ++ rs.1,
     { rs.2 with
       emails := rs.2.emails ++ [{ dirOut := false, counterpart := sup.name,
                                   subject := "Re: " ++ subject,
                                   body := rs.1.take 200 }] })

/-! ### Tool dispatch -/

/-- A structured tool invocation from the decision step.  The extra
field of send_email is the unreliable-delivery random draw. -/
inductive ToolCall where
  | send_email (toAddr subject body : String) (extra : ℕ)
  | set_price (product : String) (price : ℚ)
  | check_inventory
  | check_balance
  | take_notes (text : String)
  | view_sales_history
  | unknownTool (name : String)
deriving DecidableEq, Repr

/-- Exact dict-key lookup "product in state.products". -/
def strToPName (p : String) : Option PName :=
  if p = "Soda" then some .Soda
  else if p = "Chips" then some .Chips
  else if p = "Candy" then some .Candy
  else none

/-- The check_inventory report string. -/
def inventoryMsg (s : GameState) : String :=
  String.intercalate "\n"
    ("Current inventory:" ::
      pnames.map fun p =>
        "  " ++ (s.products.get p).name ++ ": " ++ toString (s.products.get p).stock ++
          " units @ $" ++ fmt2 (s.products.get p).price)

/-- Python repr of the sales_today dict. -/
def salesMsg (s : GameState) : String :=
  "Yesterday\x27s sales: \x7b\x27Soda\x27: " ++ toString s.sales_today.soda ++
    ", \x27Chips\x27: " ++ toString s.sales_today.chips ++
    ", \x27Candy\x27: " ++ toString s.sales_today.candy ++ "\x7d"

/-- handle_tool_call of simulation.py. -/
def handle_tool_call (s : GameState) (t : ToolCall) : String × GameState :=
  match t with
  | .send_email toAddr subject body extra => handle_email s toAddr subject body extra
  | .set_price product price =>
    match strToPName product with
    | some p =>
      let old := (s.products.get p).price
      ("Price for " ++ product ++ " changed from $" ++ fmt2 old ++ " to $" ++
         fmt2 price,
       { s with products := s.products.set p { s.products.get p with price := price } })
    | none => ("Unknown product: " ++ product, s)
  | .check_inventory => (inventoryMsg s, s)
  | .check_balance => ("Current balance: $" ++ fmt2 s.balance, s)
  | .take_notes text => ("Notes saved.", { s with agent_notes := text })
  | .view_sales_history => (salesMsg s, s)
  | .unknownTool name => ("Unknown tool: " ++ name, s)

/-! ### The demand simulator -/

/-- Fixed per-product base demand. -/
def base_demand : PName → ℤ
  | .Soda => 20
  | .Chips => 15
  | .Candy => 18

/-- int(base_demand * (2.0 / (price + 0.5)) * u) with u the uniform
draw from  [0.7, 1.3]. -/
def computedDemand (base : ℤ) (price u : ℚ) : ℤ :=
  trunc ((base : ℚ) * (2 / (price + 1/2)) * u)

/-- Body of the per-product loop of simulate_customers: the updated
product, units sold and revenue contribution. -/
def sellProduct (u : ℚ) (base : ℤ) (p : Product) : Product × ℤ × ℚ :=
  if p.stock ≤ 0 then (p, 0, 0)
  else
    let demand := computedDemand base p.price u
    let sold := min demand p.stock
    ({ p with stock := p.stock - sold }, sold, (sold : ℚ) * p.price)

/-- simulate_customers of simulation.py.  u gives the per-product
uniform draws, in the loop order Soda, Chips, Candy. -/
def simulate_customers (s : GameState) (u : PName → ℚ) :
    GameState × Sales × ℚ :=
  let rs := sellProduct (u .Soda) (base_demand .Soda) s.products.soda
  let rc := sellProduct (u .Chips) (base_demand .Chips) s.products.chips
  let rd := sellProduct (u .Candy) (base_demand .Candy) s.products.candy
  let sales : Sales := { soda := rs.2.1, chips := rc.2.1, candy := rd.2.1 }
  let revenue := rs.2.2 + rc.2.2 + rd.2.2
  ({ s with
     products := { soda := rs.1, chips := rc.1, candy := rd.1 }
     balance := s.balance + revenue
     sales_today := sales },
   sales, round2 revenue)

/-! ### The order book -/

/-- order["days_remaining"] -= 1. -/
def stepOrder (o : Order) : Order := { o with days_remaining := o.days_remaining - 1 }

/-- An order due for delivery after the decrement. -/
def isDue (o : Order) : Bool := o.days_remaining ≤ 0

/-- Credit a delivered quantity to the matching product. -/
def creditStock (inv : Inventory) (p : PName) (q : ℕ) : Inventory :=
  inv.set p { inv.get p with stock := (inv.get p).stock + q }

/-- The loop of process_pending_orders: decrement each order, deliver
the due ones in iteration order, keep the rest in order. -/
def deliverLoop (inv : Inventory) : List Order → Inventory × List Order × List Order
  | [] => (inv, [], [])
  | o :: rest =>
    let o' := stepOrder o
    if isDue o' then
      let r := deliverLoop (creditStock inv o'.product o'.quantity) rest
      (r.1, r.2.1, o' :: r.2.2)
    else
      let r := deliverLoop inv rest
      (r.1, o' :: r.2.1, r.2.2)

/-- process_pending_orders of simulation.py, returning the new state
and the delivered list. -/
def process_pending_orders (s : GameState) : GameState × List Order :=
  let r := deliverLoop s.products s.pending_orders
  ({ s with products := r.1, pending_orders := r.2.1 }, r.2.2)

/-! ### The day-cycle controller (run_simulation_loop of server.py) -/

/-- The fixed daily operating cost. -/
def DAILY_FEE : ℚ := 5

/-- Execute the decision step's tool calls in order, discarding the
result strings. -/
def applyTools (s : GameState) (acts : List ToolCall) : GameState :=
  acts.foldl (fun st a => (handle_tool_call st a).2) s

/-- Outcome of one iteration of the day loop. -/
inductive DayOutcome where
  | bankrupt (s : GameState)
  | ran (s : GameState)
deriving DecidableEq, Repr

/-- One iteration of the while loop of run_simulation_loop: deduct the
daily fee, stop on bankruptcy, otherwise deliver pending orders, run
the agent's tool calls, simulate customers and advance the day. -/
def run_day (s : GameState) (acts : List ToolCall) (u : PName → ℚ) : DayOutcome :=
  let s1 := { s with balance := s.balance - DAILY_FEE }
  if s1.balance < 0 then .bankrupt s1
  else
    let s2 := (process_pending_orders s1).1
    let s3 := applyTools s2 acts
    let s4 := (simulate_customers s3 u).1
    .ran { s4 with day := s4.day + 1 }

/-! ### Derived notions used by the specification theorems -/

/-- Fold crediting a list of delivered orders into the inventory. -/
def creditAll (inv : Inventory) (dl : List Order) : Inventory :=
  dl.foldl (fun i o => creditStock i o.product o.quantity) inv

/-- Total quantity delivered for one product by a list of orders. -/
def qtySum (p : PName) (l : List Order) : ℤ :=
  (l.map fun o => if o.product = p then (o.quantity : ℤ) else 0).sum

/-- The numeric argument of a set_price call is non-negative (vacuous
for the other tools). -/
def priceArgNonneg : ToolCall → Prop
  | .set_price _ q => 0 ≤ q
  | _ => True

/-! ### Helper lemmas -/

theorem Inventory.get_set (inv : Inventory) (q : PName) (pr : Product) (p : PName) :
    (inv.set q pr).get p = if p = q then pr else inv.get p := by
  cases p <;> cases q <;> simp [Inventory.get, Inventory.set]

theorem creditStock_stock (inv : Inventory) (q : PName) (n : ℕ) (p : PName) :
    ((creditStock inv q n).get p).stock =
      (inv.get p).stock + (if q = p then (n : ℤ) else 0) := by
  rw [creditStock, Inventory.get_set]
  split_ifs with h1 h2 h2
  · subst h1; simp
  · exact absurd h1.symm h2
  · exact absurd h2.symm h1
  · simp

theorem creditStock_price (inv : Inventory) (q : PName) (n : ℕ) (p : PName) :
    ((creditStock inv q n).get p).price = (inv.get p).price := by
  rw [creditStock, Inventory.get_set]
  split_ifs with h1
  · subst h1; rfl
  · rfl

theorem creditAll_stock :
    ∀ (dl : List Order) (inv : Inventory) (p : PName),
      ((creditAll inv dl).get p).stock = (inv.get p).stock + qtySum p dl
  | [], inv, p => by simp [creditAll, qtySum]
  | o :: dl, inv, p => by
    have h1 : creditAll inv (o :: dl) =
        creditAll (creditStock inv o.product o.quantity) dl := rfl
    rw [h1, creditAll_stock dl _ p, creditStock_stock]
    simp [qtySum, add_assoc]

theorem creditAll_price :
    ∀ (dl : List Order) (inv : Inventory) (p : PName),
      ((creditAll inv dl).get p).price = (inv.get p).price
  | [], _, _ => rfl
  | o :: dl, inv, p => by
    have h1 : creditAll inv (o :: dl) =
        creditAll (creditStock inv o.product o.quantity) dl := rfl
    rw [h1, creditAll_price dl _ p, creditStock_price]

theorem qtySum_nonneg (p : PName) (l : List Order) : 0 ≤ qtySum p l := by
  refine List.sum_nonneg ?_
  intro x hx
  simp only [List.mem_map] at hx
  obtain ⟨o, _, rfl⟩ := hx
  split_ifs
  · exact Int.ofNat_nonneg _
  · exact le_refl 0

theorem deliverLoop_spec :
    ∀ (l : List Order) (inv : Inventory),
      deliverLoop inv l =
        (creditAll inv ((l.map stepOrder).filter isDue),
         (l.map stepOrder).filter (fun o => !(isDue o)),
         (l.map stepOrder).filter isDue)
  | [], inv => by simp [deliverLoop, creditAll]
  | o :: l, inv => by
    by_cases h : isDue (stepOrder o)
    · have ih := deliverLoop_spec l
        (creditStock inv (stepOrder o).product (stepOrder o).quantity)
      simp [deliverLoop, h, ih, List.filter_cons, creditAll]
    · have ih := deliverLoop_spec l inv
      simp [deliverLoop, h, ih, List.filter_cons]

theorem length_filter_partition (p : α → Bool) :
    ∀ l : List α,
      (l.filter (fun a => !(p a))).length + (l.filter p).length = l.length
  | [] => rfl
  | a :: l => by
    by_cases h : p a <;>
      simp [List.filter_cons, h, ← length_filter_partition p l] <;> omega

/-- C4: one call to the order-book advance operation decrements every
pending order's days_remaining by 1; orders thereby reaching
days_remaining ≤ 0 are removed, their quantities credited to the
matching product's stock, and returned in insertion order in the
delivered list; the others remain pending, and each order ends up in
exactly one of the two lists (delivered exactly once, never twice). -/
theorem c4_process_pending_orders_spec (s : GameState) :
    (process_pending_orders s).1.pending_orders =
        (s.pending_orders.map stepOrder).filter (fun o => !(isDue o)) ∧
    (process_pending_orders s).2 = (s.pending_orders.map stepOrder).filter isDue ∧
    (∀ p, ((process_pending_orders s).1.products.get p).stock =
        (s.products.get p).stock + qtySum p ((process_pending_orders s).2)) ∧
    (process_pending_orders s).1.pending_orders.length +
        (process_pending_orders s).2.length = s.pending_orders.length := by
  have hd := deliverLoop_spec s.pending_orders s.products
  refine ⟨?_, ?_, ?_, ?_⟩
  · simp [process_pending_orders, hd]
  · simp [process_pending_orders, hd]
  · intro p
    simp [process_pending_orders, hd, creditAll_stock]
  · simp [process_pending_orders, hd]
    have := length_filter_partition isDue (s.pending_orders.map stepOrder)
    simpa using this

/-- C5: stock is never negative: both stock-changing operations
(demand simulation and order delivery) preserve per-product stock ≥ 0,
and the demand phase sells exactly min(computed demand, stock). -/
theorem c5_stock_nonneg (s : GameState) (u : PName → ℚ)
    (h : ∀ p, 0 ≤ (s.products.get p).stock) :
    (∀ p, 0 ≤ ((simulate_customers s u).1.products.get p).stock) ∧
    (∀ p, 0 ≤ ((process_pending_orders s).1.products.get p).stock) ∧
    (∀ p, 0 < (s.products.get p).stock →
      (simulate_customers s u).2.1.get p =
        min (computedDemand (base_demand p) ((s.products.get p).price) (u p))
          ((s.products.get p).stock)) := by
  have hsell : ∀ (v : ℚ) (b : ℤ) (pr : Product), 0 ≤ pr.stock →
      0 ≤ (sellProduct v b pr).1.stock := by
    intro v b pr hpr
    unfold sellProduct
    split
    · exact hpr
    · exact sub_nonneg.mpr (min_le_right _ _)
  refine ⟨?_, ?_, ?_⟩
  · intro p
    cases p
    · simpa [simulate_customers, Inventory.get] using
        hsell (u .Soda) (base_demand .Soda) s.products.soda (h .Soda)
    · simpa [simulate_customers, Inventory.get] using
        hsell (u .Chips) (base_demand .Chips) s.products.chips (h .Chips)
    · simpa [simulate_customers, Inventory.get] using
        hsell (u .Candy) (base_demand .Candy) s.products.candy (h .Candy)
  · intro p
    have hd := deliverLoop_spec s.pending_orders s.products
    have : ((process_pending_orders s).1.products.get p).stock =
        (s.products.get p).stock +
          qtySum p ((s.pending_orders.map stepOrder).filter isDue) := by
      simp [process_pending_orders, hd, creditAll_stock]
    rw [this]
    exact add_nonneg (h p) (qtySum_nonneg _ _)
  · intro p hp
    have hsold : ∀ (v : ℚ) (b : ℤ) (pr : Product), 0 < pr.stock →
        (sellProduct v b pr).2.1 = min (computedDemand b pr.price v) pr.stock := by
      intro v b pr hpr
      unfold sellProduct
      rw [if_neg (by omega)]
    cases p
    · simpa [simulate_customers, Sales.get, Inventory.get] using
        hsold (u .Soda) (base_demand .Soda) s.products.soda (by simpa [Inventory.get] using hp)
    · simpa [simulate_customers, Sales.get, Inventory.get] using
        hsold (u .Chips) (base_demand .Chips) s.products.chips (by simpa [Inventory.get] using hp)
    · simpa [simulate_customers, Sales.get, Inventory.get] using
        hsold (u .Candy) (base_demand .Candy) s.products.candy (by simpa [Inventory.get] using hp)

/-- Witness for C5 at the initial state with a unit random draw. -/
theorem c5_witness :
    (∀ p, 0 ≤ (initState.products.get p).stock) ∧
    ((∀ p, 0 ≤ ((simulate_customers initState (fun _ => 1)).1.products.get p).stock) ∧
     (∀ p, 0 ≤ ((process_pending_orders initState).1.products.get p).stock) ∧
     (∀ p, 0 < (initState.products.get p).stock →
       (simulate_customers initState (fun _ => 1)).2.1.get p =
         min (computedDemand (base_demand p) ((initState.products.get p).price) 1)
           ((initState.products.get p).stock))) :=
  ⟨by decide, c5_stock_nonneg initState (fun _ => 1) (by decide)⟩

theorem sellProduct_rev (v : ℚ) (b : ℤ) (pr : Product) :
    (sellProduct v b pr).2.2 = ((sellProduct v b pr).2.1 : ℚ) * pr.price := by
  unfold sellProduct
  split
  · simp
  · rfl

theorem sellProduct_price (v : ℚ) (b : ℤ) (pr : Product) :
    (sellProduct v b pr).1.price = pr.price := by
  unfold sellProduct
  split <;> rfl

theorem sellProduct_of_nonpos (v : ℚ) (b : ℤ) (pr : Product) (h : pr.stock ≤ 0) :
    sellProduct v b pr = (pr, 0, 0) := by
  unfold sellProduct
  rw [if_pos h]

theorem sellProduct_of_pos (v : ℚ) (b : ℤ) (pr : Product) (h : 0 < pr.stock) :
    (sellProduct v b pr).2.1 = min (computedDemand b pr.price v) pr.stock ∧
    (sellProduct v b pr).1.stock = pr.stock - (sellProduct v b pr).2.1 := by
  unfold sellProduct
  rw [if_neg (by omega)]
  exact ⟨rfl, rfl⟩

/-- C2: one run of the demand simulation computes, per in-stock
product, demand = int(base_demand * (2 / (price + 0.5)) * u) with the
uniform draw u from [0.7, 1.3], sells min(demand, stock), decrements
stock by the sold amount, adds sold * price to the balance, and skips
zero-stock products with zero sales and no balance contribution. -/
theorem c2_demand_simulation (s : GameState) (u : PName → ℚ)
    (hu : ∀ p, (7:ℚ)/10 ≤ u p ∧ u p ≤ 13/10) :
    (∀ p, 0 < (s.products.get p).stock →
      (simulate_customers s u).2.1.get p =
        min (computedDemand (base_demand p) ((s.products.get p).price) (u p))
          ((s.products.get p).stock) ∧
      ((simulate_customers s u).1.products.get p).stock =
        (s.products.get p).stock - (simulate_customers s u).2.1.get p) ∧
    (∀ p, (s.products.get p).stock ≤ 0 →
      (simulate_customers s u).2.1.get p = 0 ∧
      (simulate_customers s u).1.products.get p = s.products.get p) ∧
    (simulate_customers s u).1.balance =
      s.balance +
        (pnames.map fun p =>
          ((simulate_customers s u).2.1.get p : ℚ) * (s.products.get p).price).sum := by
  refine ⟨?_, ?_, ?_⟩
  · intro p hp
    cases p
    · simpa [simulate_customers, Sales.get, Inventory.get] using
        sellProduct_of_pos (u .Soda) (base_demand .Soda) s.products.soda
          (by simpa [Inventory.get] using hp)
    · simpa [simulate_customers, Sales.get, Inventory.get] using
        sellProduct_of_pos (u .Chips) (base_demand .Chips) s.products.chips
          (by simpa [Inventory.get] using hp)
    · simpa [simulate_customers, Sales.get, Inventory.get] using
        sellProduct_of_pos (u .Candy) (base_demand .Candy) s.products.candy
          (by simpa [Inventory.get] using hp)
  · intro p hp
    cases p
    · simpa [simulate_customers, Sales.get, Inventory.get] using
        congrArg (fun r => (r.2.1, r.1))
          (sellProduct_of_nonpos (u .Soda) (base_demand .Soda) s.products.soda
            (by simpa [Inventory.get] using hp))
    · simpa [simulate_customers, Sales.get, Inventory.get] using
        congrArg (fun r => (r.2.1, r.1))
          (sellProduct_of_nonpos (u .Chips) (base_demand .Chips) s.products.chips
            (by simpa [Inventory.get] using hp))
    · simpa [simulate_customers, Sales.get, Inventory.get] using
        congrArg (fun r => (r.2.1, r.1))
          (sellProduct_of_nonpos (u .Candy) (base_demand .Candy) s.products.candy
            (by simpa [Inventory.get] using hp))
  · have hs := sellProduct_rev (u .Soda) (base_demand .Soda) s.products.soda
    have hc := sellProduct_rev (u .Chips) (base_demand .Chips) s.products.chips
    have hd := sellProduct_rev (u .Candy) (base_demand .Candy) s.products.candy
    simp only [simulate_customers, pnames, Sales.get, Inventory.get, List.map_cons,
      List.map_nil, List.sum_cons, List.sum_nil]
    rw [hs, hc, hd]
    ring

/-- Witness for C2 at the initial state with the unit random draw. -/
theorem c2_witness :
    (∀ p : PName, (7:ℚ)/10 ≤ 1 ∧ (1:ℚ) ≤ 13/10) ∧
    ((∀ p, 0 < (initState.products.get p).stock →
      (simulate_customers initState (fun _ => 1)).2.1.get p =
        min (computedDemand (base_demand p) ((initState.products.get p).price) 1)
          ((initState.products.get p).stock) ∧
      ((simulate_customers initState (fun _ => 1)).1.products.get p).stock =
        (initState.products.get p).stock -
          (simulate_customers initState (fun _ => 1)).2.1.get p) ∧
    (∀ p, (initState.products.get p).stock ≤ 0 →
      (simulate_customers initState (fun _ => 1)).2.1.get p = 0 ∧
      (simulate_customers initState (fun _ => 1)).1.products.get p =
        initState.products.get p) ∧
    (simulate_customers initState (fun _ => 1)).1.balance =
      initState.balance +
        (pnames.map fun p =>
          ((simulate_customers initState (fun _ => 1)).2.1.get p : ℚ) *
            (initState.products.get p).price).sum) :=
  ⟨by norm_num, c2_demand_simulation initState (fun _ => 1) (by norm_num)⟩

theorem trunc_le_trunc_of_nonneg {x y : ℚ} (hx : 0 ≤ x) (hxy : x ≤ y) :
    trunc x ≤ trunc y := by
  unfold trunc
  rw [if_pos hx, if_pos (hx.trans hxy)]
  exact Int.floor_mono hxy

/-- C7: for a fixed random draw in [0.7, 1.3], the computed
truncated-integer demand is antitone in the price: a lower
(non-negative) price never yields strictly lower demand. -/
theorem c7_demand_price_antitone (p : PName) (pr1 pr2 v : ℚ)
    (hp2 : 0 ≤ pr2) (h12 : pr2 ≤ pr1) (hv1 : (7:ℚ)/10 ≤ v) (hv2 : v ≤ 13/10) :
    computedDemand (base_demand p) pr1 v ≤ computedDemand (base_demand p) pr2 v := by
  have hb : (0:ℚ) ≤ ((base_demand p : ℤ) : ℚ) := by
    cases p <;> norm_num [base_demand]
  have h2pos : (0:ℚ) < pr2 + 1/2 := by linarith
  have h1pos : (0:ℚ) < pr1 + 1/2 := by linarith
  have hv0 : (0:ℚ) ≤ v := by linarith
  have hfrac : 2 / (pr1 + 1/2) ≤ 2 / (pr2 + 1/2) := by
    apply div_le_div_of_nonneg_left (by norm_num) h2pos
    linarith
  have hmul : ((base_demand p : ℤ) : ℚ) * (2 / (pr1 + 1/2)) * v ≤
      ((base_demand p : ℤ) : ℚ) * (2 / (pr2 + 1/2)) * v :=
    mul_le_mul_of_nonneg_right (mul_le_mul_of_nonneg_left hfrac hb) hv0
  have hnn : (0:ℚ) ≤ ((base_demand p : ℤ) : ℚ) * (2 / (pr1 + 1/2)) * v :=
    mul_nonneg (mul_nonneg hb (div_nonneg (by norm_num) h1pos.le)) hv0
  exact trunc_le_trunc_of_nonneg hnn hmul

/-- Witness for C7: Soda at prices 2 and 1 with the unit draw. -/
theorem c7_witness :
    (0:ℚ) ≤ 1 ∧ (1:ℚ) ≤ 2 ∧ (7:ℚ)/10 ≤ 1 ∧ (1:ℚ) ≤ 13/10 ∧
    computedDemand (base_demand .Soda) 2 1 ≤ computedDemand (base_demand .Soda) 1 1 :=
  ⟨by norm_num, by norm_num, by norm_num, by norm_num,
    c7_demand_price_antitone .Soda 2 1 1 (by norm_num) (by norm_num) (by norm_num)
      (by norm_num)⟩

/-- C3: each day starts by setting the balance to balance - 5.0; the
day transitions to the terminal bankrupt outcome iff that post-fee
balance is negative, and in that case nothing else of the state has
changed (the delivery, decision and demand phases did not run). -/
theorem c3_bankruptcy_check (s : GameState) (acts : List ToolCall) (u : PName → ℚ) :
    ((∃ s1, run_day s acts u = .bankrupt s1) ↔ s.balance - DAILY_FEE < 0) ∧
    (∀ s1, run_day s acts u = .bankrupt s1 →
      s1 = { s with balance := s.balance - DAILY_FEE }) := by
  by_cases h : s.balance - DAILY_FEE < 0
  · have hr : run_day s acts u = .bankrupt { s with balance := s.balance - DAILY_FEE } := by
      unfold run_day
      rw [if_pos h]
    refine ⟨⟨fun _ => h, fun _ => ⟨_, hr⟩⟩, ?_⟩
    intro s1 hs1
    rw [hr] at hs1
    injection hs1 with h2
    exact h2.symm
  · have hr : ∀ s1, run_day s acts u ≠ .bankrupt s1 := by
      intro s1 hcon
      unfold run_day at hcon
      rw [if_neg h] at hcon
      exact DayOutcome.noConfusion hcon
    refine ⟨⟨?_, fun hh => absurd hh h⟩, fun s1 hs1 => absurd hs1 (hr s1)⟩
    rintro ⟨s1, hs1⟩
    exact absurd hs1 (hr s1)

/-- Witness for C3: a state with balance 3 goes bankrupt at the fee. -/
theorem c3_witness :
    run_day { initState with balance := 3 } [] (fun _ => 1) =
      .bankrupt { initState with balance := 3 - DAILY_FEE } := by
  have h := c3_bankruptcy_check { initState with balance := 3 } [] (fun _ => 1)
  obtain ⟨s1, hs1⟩ := h.1.mpr (by norm_num [initState, DAILY_FEE])
  rw [hs1, h.2 s1 hs1]

theorem placeOrders_balance (sup : SupplierInfo) (dd : ℤ) :
    ∀ (qs : List (PName × ℕ)) (s : GameState),
      (placeOrders sup dd qs s).balance = s.balance - orderTotal sup qs
  | [], s => by simp [placeOrders, orderTotal]
  | pq :: qs, s => by
    have h1 : placeOrders sup dd (pq :: qs) s =
        placeOrders sup dd qs
          { s with
            balance := s.balance - lineCost sup pq
            pending_orders := s.pending_orders ++ [mkOrder sup dd pq] } := rfl
    rw [h1, placeOrders_balance sup dd qs]
    simp [orderTotal, sub_sub]

theorem placeOrders_pending (sup : SupplierInfo) (dd : ℤ) :
    ∀ (qs : List (PName × ℕ)) (s : GameState),
      (placeOrders sup dd qs s).pending_orders =
        s.pending_orders ++ qs.map (mkOrder sup dd)
  | [], s => by simp [placeOrders]
  | pq :: qs, s => by
    have h1 : placeOrders sup dd (pq :: qs) s =
        placeOrders sup dd qs
          { s with
            balance := s.balance - lineCost sup pq
            pending_orders := s.pending_orders ++ [mkOrder sup dd pq] } := rfl
    rw [h1, placeOrders_pending sup dd qs]
    simp

theorem placeOrders_products (sup : SupplierInfo) (dd : ℤ) :
    ∀ (qs : List (PName × ℕ)) (s : GameState),
      (placeOrders sup dd qs s).products = s.products
  | [], _ => rfl
  | pq :: qs, s => placeOrders_products sup dd qs _

theorem placeOrders_emails (sup : SupplierInfo) (dd : ℤ) :
    ∀ (qs : List (PName × ℕ)) (s : GameState),
      (placeOrders sup dd qs s).emails = s.emails
  | [], _ => rfl
  | pq :: qs, s => placeOrders_emails sup dd qs _

theorem gsr_emails (s : GameState) (sup : SupplierInfo) (body : String) (extra : ℕ) :
    (generate_supplier_response s sup body extra).2.emails = s.emails := by
  simp only [generate_supplier_response]
  split
  · split
    · rfl
    · exact placeOrders_emails sup _ _ s
  · rfl

theorem gsr_products (s : GameState) (sup : SupplierInfo) (body : String) (extra : ℕ) :
    (generate_supplier_response s sup body extra).2.products = s.products := by
  simp only [generate_supplier_response]
  split
  · split
    · rfl
    · exact placeOrders_products sup _ _ s
  · rfl

theorem gsr_pending_mem (s : GameState) (sup : SupplierInfo) (body : String)
    (extra : ℕ) (o : Order)
    (ho : o ∈ (generate_supplier_response s sup body extra).2.pending_orders) :
    o ∈ s.pending_orders ∨ (o.product, o.quantity) ∈ parseQuantities body := by
  revert ho
  simp only [generate_supplier_response]
  split
  · split
    · exact fun ho => Or.inl ho
    · rw [placeOrders_pending]
      intro ho
      rcases List.mem_append.mp ho with h1 | h2
      · exact Or.inl h1
      · right
        rcases List.mem_map.mp h2 with ⟨pq, hpq, rfl⟩
        simpa [mkOrder] using hpq
  · exact fun ho => Or.inl ho

theorem gsr_pending_of_empty (s : GameState) (sup : SupplierInfo) (body : String)
    (extra : ℕ) (h : parseQuantities body = []) :
    (generate_supplier_response s sup body extra).2.pending_orders =
      s.pending_orders := by
  simp [generate_supplier_response, h]

theorem handle_email_products (s : GameState) (toAddr subject body : String)
    (extra : ℕ) :
    (handle_email s toAddr subject body extra).2.products = s.products := by
  simp only [handle_email]
  split
  · rfl
  · simp [gsr_products]

/-- C10 (amended statement is the claim itself): handle_email first
appends exactly one outbound record with the body truncated to 200
characters; when no supplier matches, that outbound append is the only
mutation; when a supplier matches, exactly one inbound record is
additionally appended, so the prior log is preserved unmodified as a
prefix in every case. -/
theorem c10_email_log (s : GameState) (toAddr subject body : String) (extra : ℕ) :
    (findSupplier toAddr = none →
      handle_email s toAddr subject body extra =
        ("Unknown recipient: " ++ toAddr,
         { s with
           emails := s.emails ++
             [{ dirOut := true, counterpart := toAddr, subject := subject,
                body := body.take 200 }] })) ∧
    (∀ sup, findSupplier toAddr = some sup →
      ∃ reply : String,
        (handle_email s toAddr subject body extra).2.emails =
          s.emails ++
            [{ dirOut := true, counterpart := toAddr, subject := subject,
               body := body.take 200 },
             { dirOut := false, counterpart := sup.name,
               subject := "Re: " ++ subject, body := reply.take 200 }]) := by
  constructor
  · intro h
    simp [handle_email, h]
  · intro sup h
    refine ⟨(generate_supplier_response
        { s with
          emails := s.emails ++
            [{ dirOut := true, counterpart := toAddr, subject := subject,
               body := body.take 200 }] } sup body extra).1, ?_⟩
    simp [handle_email, h, gsr_emails]

/-- Witness for C10 in both branches: an unknown recipient and a
resolved supplier. -/
theorem c10_witness :
    findSupplier "nobody" = none ∧
    handle_email initState "nobody" "Hi" "hello" 0 =
      ("Unknown recipient: nobody",
       { initState with
         emails := initState.emails ++
           [{ dirOut := true, counterpart := "nobody", subject := "Hi",
              body := "hello".take 200 }] }) ∧
    (∃ reply : String,
      (handle_email initState "QuickStock" "Hi" "hello" 0).2.emails =
        initState.emails ++
          [{ dirOut := true, counterpart := "QuickStock", subject := "Hi",
             body := "hello".take 200 },
           { dirOut := false, counterpart := quickStock.name,
             subject := "Re: " ++ "Hi", body := reply.take 200 }]) := by
  have h1 : findSupplier "nobody" = none := by decide
  have h2 : findSupplier "QuickStock" = some quickStock := by decide
  exact ⟨h1, (c10_email_log initState "nobody" "Hi" "hello" 0).1 h1,
    (c10_email_log initState "QuickStock" "Hi" "hello" 0).2 quickStock h2⟩

/-- C9 (amended): every operation except an invalid set_price keeps all
prices non-negative; set_price preserves price ≥ 0 exactly when its
numeric argument is ≥ 0 (the code assigns the argument without
validation), and the demand and delivery phases never change a price. -/
theorem c9_price_nonneg (s : GameState) (t : ToolCall) (u : PName → ℚ)
    (h : ∀ p, 0 ≤ (s.products.get p).price) (ht : priceArgNonneg t) :
    (∀ p, 0 ≤ (((handle_tool_call s t).2).products.get p).price) ∧
    (∀ p, ((simulate_customers s u).1.products.get p).price =
      (s.products.get p).price) ∧
    (∀ p, ((process_pending_orders s).1.products.get p).price =
      (s.products.get p).price) := by
  refine ⟨?_, ?_, ?_⟩
  · intro p
    cases t with
    | send_email toAddr subject body extra =>
      have := handle_email_products s toAddr subject body extra
      simpa [handle_tool_call, this] using h p
    | set_price product price =>
      simp only [handle_tool_call]
      cases hsp : strToPName product with
      | none => exact h p
      | some p0 =>
        simp only []
        rw [Inventory.get_set]
        split_ifs with hpq
        · exact ht
        · exact h p
    | check_inventory => exact h p
    | check_balance => exact h p
    | take_notes text => exact h p
    | view_sales_history => exact h p
    | unknownTool name => exact h p
  · intro p
    cases p <;> simp [simulate_customers, Inventory.get, sellProduct_price]
  · intro p
    have hd := deliverLoop_spec s.pending_orders s.products
    simp [process_pending_orders, hd, creditAll_price]

/-- Witness for C9 at a valid set_price call. -/
theorem c9_witness :
    (∀ p, 0 ≤ ((initState.products.get p).price)) ∧
    ((∀ p, 0 ≤ (((handle_tool_call initState (.set_price "Soda" 2)).2).products.get p).price) ∧
     (∀ p, ((simulate_customers initState (fun _ => 1)).1.products.get p).price =
       (initState.products.get p).price) ∧
     (∀ p, ((process_pending_orders initState).1.products.get p).price =
       (initState.products.get p).price)) :=
  ⟨by intro p; cases p <;> norm_num [initState, Inventory.get],
   c9_price_nonneg initState (.set_price "Soda" 2) (fun _ => 1)
     (by intro p; cases p <;> norm_num [initState, Inventory.get])
     (by show (0:ℚ) ≤ 2; norm_num)⟩

/-- C1 counterexample: a concrete order-classified email whose cost
(70.00) exceeds the balance (10) does change the game state as a whole:
the outbound mail and the rejection reply are appended to the email
log, so the state is not exactly as before the call. -/
theorem c1_counterexample :
    isOrderB "order 100 soda" = true ∧
    parseQuantities "order 100 soda" = [(PName.Soda, 100)] ∧
    orderTotal quickStock (parseQuantities "order 100 soda") >
      ({ initState with balance := 10 } : GameState).balance ∧
    (handle_email { initState with balance := 10 } "QuickStock" "Supplies"
        "order 100 soda" 0).1 =
      "Email sent to QuickStock. They replied: Your order totals $70.00 but your balance is only $10.00. Please adjust your order." ∧
    (handle_email { initState with balance := 10 } "QuickStock" "Supplies"
        "order 100 soda" 0).2 ≠ { initState with balance := 10 } := by
  decide

/-- C1 (amended): for every order-classified email whose extracted
total cost exceeds the balance, the interpreter returns the rejection
reply stating the shortfall, and balance, stock, pending_orders and
every other field are exactly as before except the email log, which
gains the outbound record and the rejection reply. -/
theorem c1_unaffordable_rejection (s : GameState) (toAddr subject body : String)
    (extra : ℕ) (sup : SupplierInfo)
    (hsup : findSupplier toAddr = some sup)
    (horder : isOrderB body = true)
    (hqs : parseQuantities body ≠ [])
    (hcost : orderTotal sup (parseQuantities body) > s.balance) :
    handle_email s toAddr subject body extra =
      ("Email sent to " ++ sup.name ++ ". They replied: " ++
         rejectionMsg (orderTotal sup (parseQuantities body)) s.balance,
       { s with
         emails := s.emails ++
           [{ dirOut := true, counterpart := toAddr, subject := subject,
              body := body.take 200 },
            { dirOut := false, counterpart := sup.name,
              subject := "Re: " ++ subject,
              body := (rejectionMsg (orderTotal sup (parseQuantities body))
                s.balance).take 200 }] }) := by
  have hcond : (isOrderB body && !(parseQuantities body).isEmpty) = true := by
    rw [horder]
    simpa using hqs
  have hgsr :
      generate_supplier_response
        { s with
          emails := s.emails ++
            [{ dirOut := true, counterpart := toAddr, subject := subject,
               body := body.take 200 }] } sup body extra =
      (rejectionMsg (orderTotal sup (parseQuantities body)) s.balance,
       { s with
         emails := s.emails ++
           [{ dirOut := true, counterpart := toAddr, subject := subject,
              body := body.take 200 }] }) := by
    simp only [generate_supplier_response, hcond, if_true]
    rw [if_pos hcost]
  simp only [handle_email, hsup, hgsr]
  simp [List.append_assoc]

/-- Witness for C1 at the counterexample input. -/
theorem c1_witness :
    handle_email { initState with balance := 10 } "QuickStock" "Supplies"
        "order 100 soda" 0 =
      ("Email sent to " ++ quickStock.name ++ ". They replied: " ++
         rejectionMsg (orderTotal quickStock (parseQuantities "order 100 soda"))
           ({ initState with balance := 10 } : GameState).balance,
       { ({ initState with balance := 10 } : GameState) with
         emails := ({ initState with balance := 10 } : GameState).emails ++
           [{ dirOut := true, counterpart := "QuickStock", subject := "Supplies",
              body := ("order 100 soda").take 200 },
            { dirOut := false, counterpart := quickStock.name,
              subject := "Re: " ++ "Supplies",
              body := (rejectionMsg
                (orderTotal quickStock (parseQuantities "order 100 soda"))
                ({ initState with balance := 10 } : GameState).balance).take 200 }] }) :=
  c1_unaffordable_rejection { initState with balance := 10 } "QuickStock"
    "Supplies" "order 100 soda" 0 quickStock (by decide) (by decide)
    (by decide) (by decide)

/-- C6 counterexample: "order 0 soda" carries an order keyword and the
product name adjacent to the number 0, and a zero-quantity order IS
created and placed into pending_orders. -/
theorem c6_counterexample :
    isOrderB "order 0 soda" = true ∧
    (handle_email initState "QuickStock" "Supplies" "order 0 soda" 0).2.pending_orders =
      [{ product := PName.Soda, quantity := 0, cost := 0, days_remaining := 1 }] := by
  decide

/-- C6 (amended): when no quantity at all is extracted no order is
created, and every order ever placed carries exactly an extracted
(non-negative) quantity of its product; an extracted quantity can be 0
when the body holds a product name adjacent to the number 0, so
zero-quantity orders are possible. -/
theorem c6_order_creation (s : GameState) (toAddr subject body : String)
    (extra : ℕ) :
    (parseQuantities body = [] →
      (handle_email s toAddr subject body extra).2.pending_orders =
        s.pending_orders) ∧
    (∀ o, o ∈ (handle_email s toAddr subject body extra).2.pending_orders →
      o ∈ s.pending_orders ∨ (o.product, o.quantity) ∈ parseQuantities body) := by
  constructor
  · intro h
    simp only [handle_email]
    split
    · rfl
    · exact gsr_pending_of_empty _ _ _ _ h
  · intro o
    simp only [handle_email]
    split
    · exact fun ho => Or.inl ho
    · rename_i sup _
      intro ho
      have ho' : o ∈ (generate_supplier_response
          { s with
            emails := s.emails ++
              [{ dirOut := true, counterpart := toAddr, subject := subject,
                 body := body.take 200 }] } sup body extra).2.pending_orders := ho
      exact gsr_pending_mem
        { s with
          emails := s.emails ++
            [{ dirOut := true, counterpart := toAddr, subject := subject,
               body := body.take 200 }] } sup body extra o ho'

/-- Witness for C6 on both conjuncts: a quantity-free body creates no
order, and the zero-quantity order of the counterexample body indeed
stems from an extracted quantity. -/
theorem c6_witness :
    (parseQuantities "hello" = [] ∧
      (handle_email initState "QuickStock" "Hi" "hello" 0).2.pending_orders =
        initState.pending_orders) ∧
    ({ product := PName.Soda, quantity := 0, cost := 0, days_remaining := 1 } ∈
        initState.pending_orders ∨
      ((PName.Soda : PName), (0 : ℕ)) ∈ parseQuantities "order 0 soda") := by
  refine ⟨⟨by decide, (c6_order_creation initState "QuickStock" "Hi" "hello" 0).1
    (by decide)⟩, ?_⟩
  exact (c6_order_creation initState "QuickStock" "Supplies" "order 0 soda" 0).2
    { product := PName.Soda, quantity := 0, cost := 0, days_remaining := 1 }
    (by decide)

/-- C8: from a balance-500 state with no pending orders, an email to
QuickStock classified as an order and yielding quantity 50 for Soda
deducts exactly 35.00 (unit cost 0.70) leaving balance 465.00 and one
pending order (Soda, 50, 35.00, 1 day); one subsequent advance of the
order book raises Soda stock by 50 and empties pending_orders. -/
theorem c8_quickstock_scenario (s : GameState) (subject body : String) (extra : ℕ)
    (hbal : s.balance = 500)
    (hpend : s.pending_orders = [])
    (horder : isOrderB body = true)
    (hqs : parseQuantities body = [(PName.Soda, 50)]) :
    (handle_email s "QuickStock" subject body extra).2.balance = 465 ∧
    (handle_email s "QuickStock" subject body extra).2.pending_orders =
      [{ product := PName.Soda, quantity := 50, cost := 35, days_remaining := 1 }] ∧
    (((process_pending_orders
        (handle_email s "QuickStock" subject body extra).2).1.products.get
          PName.Soda).stock =
      ((s.products.get PName.Soda).stock + 50)) ∧
    (process_pending_orders
        (handle_email s "QuickStock" subject body extra).2).1.pending_orders = [] := by
  have hsup : findSupplier "QuickStock" = some quickStock := by decide
  have hcond : (isOrderB body && !(parseQuantities body).isEmpty) = true := by
    rw [horder, hqs]
    rfl
  have hnot : ¬ (orderTotal quickStock (parseQuantities body) > (500:ℚ)) := by
    rw [hqs]
    decide
  have hgsr : ∀ t : GameState, t.balance = 500 →
      generate_supplier_response t quickStock body extra =
        ("Order confirmed: " ++ orderSummary (parseQuantities body) ++
           ". Total: $" ++ fmt2 (orderTotal quickStock (parseQuantities body)) ++
           ". Delivery " ++ deliveryMsg quickStock.delivery_days ++ ".",
         placeOrders quickStock quickStock.delivery_days (parseQuantities body) t) := by
    intro t ht
    simp only [generate_supplier_response, hcond, if_true]
    rw [ht, if_neg hnot, if_pos (show quickStock.reliable = true from rfl)]
  have hbal1 : ({ s with
      emails := s.emails ++
        [{ dirOut := true, counterpart := "QuickStock", subject := subject,
           body := body.take 200 }] } : GameState).balance = 500 := hbal
  have htot : orderTotal quickStock (parseQuantities body) = 35 := by
    rw [hqs]
    decide
  have hmk : (parseQuantities body).map
      (mkOrder quickStock quickStock.delivery_days) =
      [{ product := PName.Soda, quantity := 50, cost := 35, days_remaining := 1 }] := by
    rw [hqs]
    decide
  have hb : (handle_email s "QuickStock" subject body extra).2.balance = 465 := by
    simp only [handle_email, hsup, hgsr _ hbal1]
    rw [placeOrders_balance]
    simp only [htot]
    rw [hbal]
    decide
  have hp : (handle_email s "QuickStock" subject body extra).2.pending_orders =
      [{ product := PName.Soda, quantity := 50, cost := 35, days_remaining := 1 }] := by
    simp only [handle_email, hsup, hgsr _ hbal1]
    rw [placeOrders_pending]
    simp only [hmk]
    rw [hpend]
    rfl
  have hprod2 : (handle_email s "QuickStock" subject body extra).2.products =
      s.products := handle_email_products s "QuickStock" subject body extra
  have hstep : (([(⟨PName.Soda, 50, 35, 1⟩ : Order)]).map stepOrder).filter isDue =
      [{ product := PName.Soda, quantity := 50, cost := 35, days_remaining := 0 }] := by
    decide
  have hkeep : (([(⟨PName.Soda, 50, 35, 1⟩ : Order)]).map stepOrder).filter
      (fun o => !(isDue o)) = [] := by
    decide
  have hqty : qtySum PName.Soda
      [{ product := PName.Soda, quantity := 50, cost := 35, days_remaining := 0 }] =
      50 := by
    decide
  refine ⟨hb, hp, ?_, ?_⟩
  · have hd := deliverLoop_spec [(⟨PName.Soda, 50, 35, 1⟩ : Order)] s.products
    rw [hstep] at hd
    simp only [process_pending_orders, hp, hprod2, hd, creditAll_stock, hqty]
  · have hd := deliverLoop_spec [(⟨PName.Soda, 50, 35, 1⟩ : Order)] s.products
    rw [hstep, hkeep] at hd
    simp only [process_pending_orders, hp, hprod2, hd]

/-- Witness for C8: the initial state and the body "order 50 soda". -/
theorem c8_witness :
    initState.balance = 500 ∧ initState.pending_orders = [] ∧
    isOrderB "order 50 soda" = true ∧
    parseQuantities "order 50 soda" = [(PName.Soda, 50)] ∧
    ((handle_email initState "QuickStock" "Supplies" "order 50 soda" 0).2.balance =
      465 ∧
     (handle_email initState "QuickStock" "Supplies" "order 50 soda" 0).2.pending_orders =
      [{ product := PName.Soda, quantity := 50, cost := 35, days_remaining := 1 }] ∧
     (((process_pending_orders
        (handle_email initState "QuickStock" "Supplies" "order 50 soda" 0).2).1.products.get
          PName.Soda).stock =
      ((initState.products.get PName.Soda).stock + 50)) ∧
     (process_pending_orders
        (handle_email initState "QuickStock" "Supplies" "order 50 soda" 0).2).1.pending_orders =
      []) :=
  ⟨rfl, rfl, by decide, by decide,
   c8_quickstock_scenario initState "Supplies" "order 50 soda" 0 rfl rfl
     (by decide) (by decide)⟩

/-- C9 counterexample: set_price accepts an arbitrary numeric argument
without validation, so setting Soda to -1 from the (all-non-negative)
initial state leaves a negative price. -/
theorem c9_counterexample :
    (∀ p, 0 ≤ ((initState.products.get p).price)) ∧
    ¬ (0 ≤ (((handle_tool_call initState
        (.set_price "Soda" (-1))).2).products.get PName.Soda).price) := by
  constructor
  · intro p
    cases p <;> norm_num [initState, Inventory.get]
  · decide
